import Mathlib

/-!
Verification of the rosbag_cockpit repository against its specification.

Part I embeds the frontend `DatabaseView.vue` component (the only part of the
core logic present in the source tree): its row data model, the
`updateFilteredRosbags` filtering/sorting/pagination routine, and the
`deleteRosbag` handler.

Part II models, from the specification, the backend components whose Python
sources are not in the tree (Container Parser, Metadata Aggregator, Metadata
Store, Replay Controller): each such definition carries a doc comment starting
with `Modelled from the spec:`.
-/

namespace RosbagCockpit

/-! ### String helpers

JavaScript string operations used by `DatabaseView.vue`, embedded at the level
of character lists so that they evaluate by kernel reduction.
-/

/-- Lower-case a single character, as `String.prototype.toLowerCase` does for
the ASCII range the repository's category labels live in. -/
def lowerChar (c : Char) : Char :=
  if 'A' ≤ c ∧ c ≤ 'Z' then Char.ofNat (c.toNat + 32) else c

/-- Embedding of `s.toLowerCase()`. -/
def strToLower (s : String) : String :=
  String.mk (s.data.map lowerChar)

/-- Does the character list `s` start with the pattern `pat`? -/
def charsStartWith : List Char → List Char → Bool
  | [], _ => true
  | _ :: _, [] => false
  | p :: ps, c :: cs => p == c && charsStartWith ps cs

/-- Does the pattern `pat` occur contiguously inside `s`? -/
def charsContain (s pat : List Char) : Bool :=
  match s with
  | [] => charsStartWith pat []
  | c :: t => charsStartWith pat (c :: t) || charsContain t pat

/-- Embedding of `s.includes(pat)` on JavaScript strings. -/
def jsIncludes (s pat : String) : Bool :=
  charsContain s.data pat.data

/-- Code-point lexicographic comparison of character lists; the embedding of
`String.prototype.localeCompare` (whose exact collation is locale-dependent;
only the sign of the result is ever consumed by the component). -/
def compareChars : List Char → List Char → Ordering
  | [], [] => .eq
  | [], _ :: _ => .lt
  | _ :: _, [] => .gt
  | a :: as, b :: bs =>
    if a < b then .lt else if b < a then .gt else compareChars as bs

/-- The sign convention of a JavaScript comparator result. -/
def orderingToInt : Ordering → Int
  | .lt => -1
  | .eq => 0
  | .gt => 1

/-- Lexicographic comparison of parsed date fields, the order `Date` values
compare in once `convertCustomDateFormat` has split the timestamp string. -/
def compareNatList : List Nat → List Nat → Ordering
  | [], [] => .eq
  | [], _ :: _ => .lt
  | _ :: _, [] => .gt
  | a :: as, b :: bs =>
    if a < b then .lt else if b < a then .gt else compareNatList as bs

/-! ### DatabaseView data model

One row of the table, as built by `loadRosbags` in
`src/frontend/src/views/DatabaseView.vue` (the `bagData` object). `duration`
and `size_mb` are formatted with `toFixed(2)` for display; the sort comparator
coerces `size_mb` back to a number, so the embedding keeps its numeric value
(in hundredths of a MB, the precision `toFixed(2)` retains). The per-topic
display columns are presentation-only and carry no logic, so they are not
embedded. A missing (`undefined`) string field is embedded as `""`, matching
the truthiness tests the component performs on these fields. -/
structure Rosbag where
  id : Nat
  file_path : String
  map_category : String
  start_time : String
  end_time : String
  duration : String
  size_mb : Int
  message_count : Nat
  topic_count : Nat
  created_at : String
  deriving DecidableEq, Repr

/-- The reactive state of `DatabaseView` touched by `updateFilteredRosbags`
and `deleteRosbag`. -/
structure DatabaseViewState where
  allRosbags : List Rosbag
  rosbags : List Rosbag
  currentPage : Nat
  totalPages : Nat
  searchTerm : String
  sortBy : String
  filterBy : String
  error : String
  showDeleteConfirm : Bool
  rosbagToDelete : Option Rosbag
  deriving DecidableEq, Repr

/-- `const itemsPerPage = 50` (DatabaseView.vue line 147). -/
def itemsPerPage : Nat := 50

/-- Embedding of `convertCustomDateFormat`: splits `"YYYY-MM-DD-HH-MM-SS"` on
`"-"` and reads the numeric parts; the resulting `Date` is only ever compared,
so the embedding keeps the list of parsed fields as the comparison key
(`parseInt` failure, which JavaScript turns into `NaN`, is kept as 0). -/
def convertCustomDateFormat (dateString : String) : List Nat :=
  (dateString.splitOn "-").map (fun p => p.toNat?.getD 0)

/-- The comparator passed to `filtered.sort(...)` in `updateFilteredRosbags`:
by `map_category` via `localeCompare`, by `start_time` descending with missing
dates last, or by `size_mb` descending. -/
def sortComparator (sortBy : String) (a b : Rosbag) : Int :=
  if sortBy == "map_category" then
    orderingToInt (compareChars a.map_category.data b.map_category.data)
  else if sortBy == "start_time" then
    match a.start_time == "", b.start_time == "" with
    | false, false =>
      orderingToInt
        (compareNatList
          (convertCustomDateFormat b.start_time)
          (convertCustomDateFormat a.start_time))
    | true, _ => 1
    | _, true => -1
  else if sortBy == "size_mb" then
    b.size_mb - a.size_mb
  else
    0

/-- The category filter of `updateFilteredRosbags`: `filterBy === 'all'` keeps
everything, otherwise keep rows whose truthy `map_category` equals `filterBy`
case-insensitively. -/
def categoryFiltered (st : DatabaseViewState) : List Rosbag :=
  if st.filterBy == "all" then
    st.allRosbags
  else
    st.allRosbags.filter (fun item =>
      !(item.map_category == "") &&
        (strToLower item.map_category == strToLower st.filterBy))

/-- The search filter of `updateFilteredRosbags`: a truthy `searchTerm` keeps
rows whose `file_path` contains it case-insensitively. -/
def searchFiltered (st : DatabaseViewState) : List Rosbag :=
  if st.searchTerm == "" then
    categoryFiltered st
  else
    (categoryFiltered st).filter (fun bag =>
      jsIncludes (strToLower bag.file_path) (strToLower st.searchTerm))

/-- The filtered list after the stable `filtered.sort(comparator)` call
(`Array.prototype.sort` is required to be stable; a stable insertion sort with
`comparator a b ≤ 0` embeds it). -/
def filteredSortedList (st : DatabaseViewState) : List Rosbag :=
  List.insertionSort (fun a b => sortComparator st.sortBy a b ≤ 0)
    (searchFiltered st)

/-- Embedding of `updateFilteredRosbags` (DatabaseView.vue lines 230-282):
filter, sort, recompute `totalPages = Math.ceil(length / itemsPerPage)`, take
the `slice(start, start + itemsPerPage)` page, then clamp `currentPage` into
range when `totalPages > 0`. -/
def updateFilteredRosbags (st : DatabaseViewState) : DatabaseViewState :=
  let filtered := filteredSortedList st
  let tp := (filtered.length + itemsPerPage - 1) / itemsPerPage
  let start := (st.currentPage - 1) * itemsPerPage
  let paged := (filtered.drop start).take itemsPerPage
  let page' := if st.currentPage > tp ∧ tp > 0 then tp else st.currentPage
  { st with rosbags := paged, totalPages := tp, currentPage := page' }

/-- Embedding of `deleteRosbag` (DatabaseView.vue lines 318-333). The outcome
of `await deleteRosbagById(...)` is passed explicitly: `.ok` for a resolved
promise, `.error msg` for a rejected one (`err.message || 'Failed to delete
rosbag'` defaults a falsy message). -/
def deleteRosbag (st : DatabaseViewState) (result : Except String Unit) :
    DatabaseViewState :=
  match st.rosbagToDelete with
  | none => st
  | some bag =>
    match result with
    | .error msg =>
      { st with error := if msg == "" then "Failed to delete rosbag" else msg }
    | .ok _ =>
      let st1 := { st with
        allRosbags := st.allRosbags.filter (fun b => !(b.id == bag.id)) }
      let st2 := updateFilteredRosbags st1
      { st2 with showDeleteConfirm := false, rosbagToDelete := none }

/-! ### Part II: backend components, modelled from the specification

The Python backend (Container Parser, Metadata Aggregator, Metadata Store,
Ingestion Orchestrator, Replay Controller) is not present in the available
source tree; the definitions below are built from the specification text and
are marked as such.
-/

/-- Modelled from the spec: `ConnectionInfo` (§3) — the transient per-topic
record produced by the Container Parser and consumed by the Aggregator. -/
structure ConnectionInfo where
  topic : String
  msgType : String
  messageCount : Nat
  firstStamp : Nat
  lastStamp : Nat
  deriving DecidableEq, Repr

/-- Add `n` messages for `topic` into a per-topic count table, keeping keys
unique: bump the existing entry or append a new one. -/
def addTopicCount : List (String × Nat) → String → Nat → List (String × Nat)
  | [], topic, n => [(topic, n)]
  | (t, c) :: rest, topic, n =>
    if t == topic then (t, c + n) :: rest
    else (t, c) :: addTopicCount rest topic n

/-- The per-topic count table of a connection stream. -/
def topicCountsOf (conns : List ConnectionInfo) : List (String × Nat) :=
  conns.foldl (fun tc c => addTopicCount tc c.topic c.messageCount) []

/-- Sum of the values of a per-topic count table. -/
def sumValues : List (String × Nat) → Nat
  | [] => 0
  | (_, c) :: rest => c + sumValues rest

/-- The classification labels exposed to collaborators, as listed in the map
filter options of DatabaseView.vue (lines 30-35). -/
def categoryLabels : List String :=
  ["skidpad", "acceleration", "autox", "trackdrive"]

/-- Modelled from the spec: the pluggable category-classification rule (§4.2),
evaluated against `file_path` tokens; a file the rule does not match is
assigned `"undefined"`. -/
def classifyCategory (file_path : String) : String :=
  match categoryLabels.find? (fun label => jsIncludes (strToLower file_path) label) with
  | some label => label
  | none => "undefined"

/-- Modelled from the spec: the metadata part of a `BagRecord` (§3); `id` and
`created_at` are assigned by the Store at upsert time. -/
structure BagMeta where
  file_path : String
  content_fingerprint : String
  size_bytes : Nat
  start_time : Nat
  end_time : Nat
  duration_seconds : Nat
  message_count : Nat
  topic_count : Nat
  topic_counts : List (String × Nat)
  category : String
  deriving DecidableEq, Repr

/-- The BagRecord invariant of §3: `message_count` is the sum of the values of
`topic_counts` and `topic_count` is its number of keys. -/
def bagInvariant (m : BagMeta) : Prop :=
  m.message_count = sumValues m.topic_counts ∧
    m.topic_count = m.topic_counts.length

/-- Modelled from the spec: the Metadata Aggregator (§4.2) — a pure fold of
one file's connection stream into exactly one unsaved BagRecord candidate;
degenerate bags (no connections, no messages) are valid output with
`duration_seconds = 0`. -/
def aggregate (file_path content_fingerprint : String) (size_bytes : Nat)
    (conns : List ConnectionInfo) : BagMeta :=
  let tc := topicCountsOf conns
  let start_time :=
    match conns.map (·.firstStamp) with
    | [] => 0
    | x :: xs => xs.foldl min x
  let end_time := (conns.map (·.lastStamp)).foldl max 0
  { file_path := file_path
    content_fingerprint := content_fingerprint
    size_bytes := size_bytes
    start_time := start_time
    end_time := end_time
    duration_seconds := end_time - start_time
    message_count := conns.foldl (fun s c => s + c.messageCount) 0
    topic_count := tc.length
    topic_counts := tc
    category := classifyCategory file_path }

/-- Modelled from the spec: one persisted BagRecord row (§3, §4.3) — a stable
surrogate `id`, the ingestion timestamp `created_at`, and the aggregated
metadata. -/
structure StoredBag where
  id : Nat
  created_at : Nat
  meta : BagMeta
  deriving DecidableEq, Repr

/-- Replace the (unique) row with the same `file_path` as `u` by `u`, keeping
its position. -/
def replaceByPath : List StoredBag → StoredBag → List StoredBag
  | [], u => [u]
  | s :: rest, u =>
    if s.meta.file_path == u.meta.file_path then u :: rest
    else s :: replaceByPath rest u

/-- Modelled from the spec: `Store.upsert` keyed on
`(file_path, content_fingerprint)` (§4.3): same path and same fingerprint is a
no-op returning the existing record; same path with a different fingerprint
replaces the row in place, keeping its `id` and refreshing `created_at`; an
unknown path inserts a fresh row. -/
def upsert (store : List StoredBag) (meta : BagMeta) (now freshId : Nat) :
    List StoredBag × StoredBag :=
  match store.find? (fun s => s.meta.file_path == meta.file_path) with
  | some r =>
    if r.meta.content_fingerprint == meta.content_fingerprint then
      (store, r)
    else
      let updated : StoredBag := { id := r.id, created_at := now, meta := meta }
      (replaceByPath store updated, updated)
  | none =>
    let fresh : StoredBag := { id := freshId, created_at := now, meta := meta }
    (store ++ [fresh], fresh)

/-- Modelled from the spec: the closed, versioned set of record kinds of the
container body (§4.1, §9). -/
inductive RecordKind
  | connectionDef
  | messageIndexEntry
  | chunkOfRecords
  | bagInfo
  deriving DecidableEq, Repr

/-- The kind tag byte of each record kind. -/
def kindCode : RecordKind → Nat
  | .connectionDef => 1
  | .messageIndexEntry => 2
  | .chunkOfRecords => 3
  | .bagInfo => 4

/-- Tagged-variant dispatch over the closed set of record kinds; unknown tags
are rejected explicitly (§9). -/
def decodeKind : Nat → Option RecordKind
  | 1 => some .connectionDef
  | 2 => some .messageIndexEntry
  | 3 => some .chunkOfRecords
  | 4 => some .bagInfo
  | _ => none

/-- A structural record of the container body: a kind and opaque payload
bytes. -/
structure RawRecord where
  kind : RecordKind
  payload : List Nat
  deriving DecidableEq, Repr

/-- On-disk encoding of one record: kind tag, length field, payload bytes. -/
def encodeRecord (r : RawRecord) : List Nat :=
  kindCode r.kind :: r.payload.length :: r.payload

/-- On-disk encoding of a record sequence. -/
def encodeBag (rs : List RawRecord) : List Nat :=
  (rs.map encodeRecord).flatten

/-- Outcome of parsing a container body: the parsed records with a truncation
flag, or a hard parse failure. -/
inductive ParseResult
  | ok (records : List RawRecord) (truncated : Bool)
  | parseError
  deriving DecidableEq, Repr

/-- Modelled from the spec: the Container Parser's record loop (§4.1) — each
record is a kind tag, a length field and payload bytes; an unknown kind tag is
a `ParseError`; a trailing record with fewer bytes than its header demands is
recoverable truncation: stop cleanly, keep everything parsed so far, set the
flag. -/
def parseRecords : List Nat → List RawRecord → ParseResult
  | [], acc => .ok acc.reverse false
  | [_], acc => .ok acc.reverse true
  | k :: len :: rest, acc =>
    match decodeKind k with
    | none => .parseError
    | some kind =>
      if rest.length < len then .ok acc.reverse true
      else parseRecords (rest.drop len) (⟨kind, rest.take len⟩ :: acc)
termination_by bytes _ => bytes.length
decreasing_by simp [List.length_drop]; omega

/-- Modelled from the spec: replay session statuses (§3, §4.5). -/
inductive ReplayStatus
  | pending
  | running
  | completed
  | failed
  | cancelled
  | timedOut
  deriving DecidableEq, Repr

/-- The four terminal statuses. -/
def ReplayStatus.isTerminal : ReplayStatus → Bool
  | .completed => true
  | .failed => true
  | .cancelled => true
  | .timedOut => true
  | _ => false

/-- Modelled from the spec: how a running session ends (§4.5 step 5). -/
inductive ReplayOutcome
  | exhausted
  | envError
  | cancelSignal
  | deadline
  deriving DecidableEq, Repr

/-- The terminal status each outcome maps to (§4.5 step 5). -/
def terminalFor : ReplayOutcome → ReplayStatus
  | .exhausted => .completed
  | .envError => .failed
  | .cancelSignal => .cancelled
  | .deadline => .timedOut

/-- Observable actions of the Replay Controller on the environment facility
and on the session record (§6). -/
inductive ReplayEvent
  | allocEnv (handle : Nat)
  | sendMsg (handle : Nat)
  | teardownEnv (handle : Nat)
  | setStatus (s : ReplayStatus)
  deriving DecidableEq, Repr

/-- Replay-path errors surfaced by `start` (§7). -/
inductive ReplayError
  | invalidTopic
  deriving DecidableEq, Repr

/-- Modelled from the spec: a `ReplaySession` record (§3), restricted to the
fields the claims touch. -/
structure ReplaySession where
  bag_id : Nat
  topics : List String
  status : ReplayStatus
  environment_handle : Option Nat
  deriving DecidableEq, Repr

/-- The validation of §4.5 step 1: `topics` is a non-empty subset of the bag's
known topics. -/
def validTopics (bagTopics topics : List String) : Bool :=
  !topics.isEmpty && topics.all (fun t => bagTopics.contains t)

/-- Is the event a teardown of the environment? -/
def isTeardown : ReplayEvent → Bool
  | .teardownEnv _ => true
  | _ => false

/-- Is the event an allocation of an environment? -/
def isAlloc : ReplayEvent → Bool
  | .allocEnv _ => true
  | _ => false

/-- Is the event a mutation of the session to a terminal status? -/
def isTerminalSet : ReplayEvent → Bool
  | .setStatus s => s.isTerminal
  | _ => false

/-- Modelled from the spec: the Replay Controller session run (§4.5): validate
the topic subset — on failure return `InvalidTopicError` with the session
unchanged (still Pending) and an empty event trace (no environment
allocated); otherwise allocate the environment, run to one of the four
outcomes, tear the environment down, and only then set the terminal status.
The returned trace records every allocation, message send, teardown and
status mutation in order; the returned session is the final session record. -/
def startReplay (sess : ReplaySession) (bagTopics : List String)
    (outcome : ReplayOutcome) (handle sent : Nat) :
    ReplaySession × Option ReplayError × List ReplayEvent :=
  if validTopics bagTopics sess.topics then
    let term := terminalFor outcome
    ({ sess with status := term, environment_handle := none },
      none,
      [.allocEnv handle, .setStatus .running] ++
        List.replicate sent (.sendMsg handle) ++
        [.teardownEnv handle, .setStatus term])
  else
    (sess, some .invalidTopic, [])

/-- Result of a Store write attempt sequence. -/
inductive WriteResult
  | ok (attempt : Nat)
  | storeBusy
  deriving DecidableEq, Repr

/-- Modelled from the spec: the backoff delay before retry `attempt`, bounded
exponential (§4.3). -/
def backoffDelay (base attempt : Nat) : Nat :=
  base * 2 ^ attempt

/-- Modelled from the spec: the Store's write path (§4.3): try the write; when
blocked behind another writer (`busy attempt = true`), retry until the fixed
retry budget is exhausted, then fail with `StoreBusyError`; a free slot
completes the write at that attempt. -/
def writeWithRetry (busy : Nat → Bool) : Nat → Nat → WriteResult
  | budget, attempt =>
    if busy attempt then
      match budget with
      | 0 => .storeBusy
      | b + 1 => writeWithRetry busy b (attempt + 1)
    else .ok attempt

/-! ### Concrete fixtures for witnesses -/

/-- A skidpad row as `loadRosbags` would build it. -/
def wbagA : Rosbag :=
  ⟨1, "/data/skidpad_01.bag", "skidpad", "2023-10-01-12-00-00",
    "2023-10-01-12-10-00", "600.00", 1234, 150, 2, "2023-10-02"⟩

/-- An autox row as `loadRosbags` would build it. -/
def wbagB : Rosbag :=
  ⟨2, "/data/autox_02.bag", "autox", "2023-10-03-09-00-00",
    "2023-10-03-09-05-00", "300.00", 567, 80, 3, "2023-10-04"⟩

/-- A view state with an active search and category filter. -/
def wstate : DatabaseViewState :=
  ⟨[wbagA, wbagB], [], 1, 1, "skid", "map_category", "skidpad", "", false, none⟩

/-- A view state with the delete-confirmation dialog open on `wbagA`. -/
def wstateDel : DatabaseViewState :=
  ⟨[wbagA, wbagB], [wbagA, wbagB], 1, 1, "", "size_mb", "all", "", true,
    some wbagA⟩

/-- Fresh metadata for the same path as `wstored` with a changed
fingerprint. -/
def wmeta : BagMeta :=
  ⟨"/data/skidpad_01.bag", "fp-new", 10, 0, 0, 0, 2, 1, [("/imu", 2)],
    "skidpad"⟩

/-- An existing store row. -/
def wstored : StoredBag :=
  ⟨7, 100, ⟨"/data/skidpad_01.bag", "fp-old", 10, 0, 0, 0, 2, 1,
    [("/imu", 2)], "skidpad"⟩⟩

/-- A connection stream entry. -/
def wconn : ConnectionInfo := ⟨"/imu", "sensor_msgs/Imu", 120, 100, 200⟩

/-- A complete container record. -/
def wrec : RawRecord := ⟨.connectionDef, [7, 8, 9]⟩

/-- A second container record, cut off in witnesses. -/
def wrecB : RawRecord := ⟨.chunkOfRecords, [1, 2]⟩

/-- A pending session over a known topic. -/
def wsession : ReplaySession := ⟨1, ["/imu"], .pending, none⟩

/-- A pending session with an empty topic set. -/
def wsessionBad : ReplaySession := ⟨1, [], .pending, none⟩

/-! ### Helper lemmas -/

theorem sumValues_addTopicCount (tc : List (String × Nat)) (t : String) (n : Nat) :
    sumValues (addTopicCount tc t n) = sumValues tc + n := by
  induction tc with
  | nil => simp [addTopicCount, sumValues]
  | cons p rest ih =>
    obtain ⟨s, c⟩ := p
    by_cases h : (s == t) = true
    · simp [addTopicCount, h, sumValues]
      omega
    · simp only [addTopicCount, h, Bool.false_eq_true, if_false, sumValues, ih]
      omega

theorem sumValues_topicCountsFold (conns : List ConnectionInfo) :
    ∀ tc0 : List (String × Nat),
      sumValues (conns.foldl (fun tc c => addTopicCount tc c.topic c.messageCount) tc0)
        = sumValues tc0 + (conns.map (·.messageCount)).sum := by
  induction conns with
  | nil => intro tc0; simp
  | cons c cs ih =>
    intro tc0
    simp only [List.foldl_cons, List.map_cons, List.sum_cons, ih,
      sumValues_addTopicCount]
    omega

theorem foldl_add_messageCount (conns : List ConnectionInfo) :
    ∀ s0 : Nat, conns.foldl (fun s c => s + c.messageCount) s0
      = s0 + (conns.map (·.messageCount)).sum := by
  induction conns with
  | nil => intro s0; simp
  | cons c cs ih =>
    intro s0
    simp only [List.foldl_cons, List.map_cons, List.sum_cons, ih]
    omega

theorem mem_replaceByPath {l : List StoredBag} {u s : StoredBag}
    (h : s ∈ replaceByPath l u) : s = u ∨ s ∈ l := by
  induction l with
  | nil =>
    simp [replaceByPath] at h
    exact Or.inl h
  | cons a rest ih =>
    by_cases hc : (a.meta.file_path == u.meta.file_path) = true
    · simp only [replaceByPath, hc, if_true, List.mem_cons] at h
      rcases h with h | h
      · exact Or.inl h
      · exact Or.inr (List.mem_cons_of_mem a h)
    · simp only [replaceByPath, hc, Bool.false_eq_true, if_false,
        List.mem_cons] at h
      rcases h with h | h
      · exact Or.inr (h ▸ List.mem_cons_self a rest)
      · rcases ih h with h' | h'
        · exact Or.inl h'
        · exact Or.inr (List.mem_cons_of_mem a h')

theorem self_mem_replaceByPath (l : List StoredBag) (u : StoredBag) :
    u ∈ replaceByPath l u := by
  induction l with
  | nil => simp [replaceByPath]
  | cons a rest ih =>
    by_cases hc : (a.meta.file_path == u.meta.file_path) = true
    · simp [replaceByPath, hc]
    · simp only [replaceByPath, hc, Bool.false_eq_true, if_false]
      exact List.mem_cons_of_mem a ih

theorem replaceByPath_length {l : List StoredBag} {u s0 : StoredBag}
    (h0 : s0 ∈ l) (hp : s0.meta.file_path = u.meta.file_path) :
    (replaceByPath l u).length = l.length := by
  induction l with
  | nil => cases h0
  | cons a rest ih =>
    by_cases hc : (a.meta.file_path == u.meta.file_path) = true
    · simp [replaceByPath, hc]
    · simp only [replaceByPath, hc, Bool.false_eq_true, if_false,
        List.length_cons]
      rcases List.mem_cons.mp h0 with h | h
      · exact absurd (beq_iff_eq.mpr (h ▸ hp)) hc
      · rw [ih h]

theorem upsert_of_find_none {store : List StoredBag} {meta : BagMeta}
    {now fid : Nat}
    (h : store.find? (fun s => s.meta.file_path == meta.file_path) = none) :
    upsert store meta now fid
      = (store ++ [⟨fid, now, meta⟩], ⟨fid, now, meta⟩) := by
  unfold upsert
  rw [h]

theorem upsert_of_find_same {store : List StoredBag} {meta : BagMeta}
    {now fid : Nat} {r : StoredBag}
    (h : store.find? (fun s => s.meta.file_path == meta.file_path) = some r)
    (hfp : r.meta.content_fingerprint = meta.content_fingerprint) :
    upsert store meta now fid = (store, r) := by
  unfold upsert
  rw [h]
  simp [hfp]

theorem upsert_of_find_changed {store : List StoredBag} {meta : BagMeta}
    {now fid : Nat} {r : StoredBag}
    (h : store.find? (fun s => s.meta.file_path == meta.file_path) = some r)
    (hfp : r.meta.content_fingerprint ≠ meta.content_fingerprint) :
    upsert store meta now fid
      = (replaceByPath store ⟨r.id, now, meta⟩, ⟨r.id, now, meta⟩) := by
  unfold upsert
  rw [h]
  have hb : (r.meta.content_fingerprint == meta.content_fingerprint) = false := by
    simpa using hfp
  simp [hb]

/-! ### Claims -/

/-- C1: for every bag file that parses successfully, the produced BagRecord
satisfies `message_count = sum of topic_counts values` and
`topic_count = number of topic_counts keys`, and every operation that creates
(the Aggregator) or updates (Store upsert) a BagRecord preserves this. -/
theorem bagRecord_invariant_everywhere
    (fp fpr : String) (sz : Nat) (conns : List ConnectionInfo)
    (store : List StoredBag) (meta : BagMeta) (now fid : Nat)
    (hstore : ∀ s ∈ store, bagInvariant s.meta) (hmeta : bagInvariant meta) :
    bagInvariant (aggregate fp fpr sz conns) ∧
    (∀ s ∈ (upsert store meta now fid).1, bagInvariant s.meta) ∧
    bagInvariant (upsert store meta now fid).2.meta := by
  refine ⟨⟨?_, rfl⟩, ?_, ?_⟩
  · show conns.foldl (fun s c => s + c.messageCount) 0
        = sumValues (topicCountsOf conns)
    rw [foldl_add_messageCount, topicCountsOf, sumValues_topicCountsFold]
    simp [sumValues]
  all_goals
    rcases hfind : store.find? (fun s => s.meta.file_path == meta.file_path)
      with - | r
  · rw [upsert_of_find_none hfind]
    intro s hs
    rcases List.mem_append.mp hs with h | h
    · exact hstore s h
    · simp at h
      rw [h]
      exact hmeta
  · by_cases hb : r.meta.content_fingerprint = meta.content_fingerprint
    · rw [upsert_of_find_same hfind hb]
      exact hstore
    · rw [upsert_of_find_changed hfind hb]
      intro s hs
      rcases mem_replaceByPath hs with h | h
      · rw [h]
        exact hmeta
      · exact hstore s h
  · rw [upsert_of_find_none hfind]
    exact hmeta
  · by_cases hb : r.meta.content_fingerprint = meta.content_fingerprint
    · rw [upsert_of_find_same hfind hb]
      exact hstore r (List.mem_of_find?_eq_some hfind)
    · rw [upsert_of_find_changed hfind hb]
      exact hmeta

/-- Witness for C1 at a concrete connection stream and store. -/
theorem bagRecord_invariant_everywhere_witness :
    bagInvariant (aggregate "/data/skidpad_01.bag" "fp-1" 10 [wconn]) ∧
    bagInvariant (upsert [wstored] wmeta 5 9).2.meta :=
  ⟨(bagRecord_invariant_everywhere "/data/skidpad_01.bag" "fp-1" 10 [wconn]
      [wstored] wmeta 5 9 (by intro s hs; simp at hs; rw [hs]; exact ⟨by decide, by decide⟩)
      ⟨by decide, by decide⟩).1,
    (bagRecord_invariant_everywhere "/data/skidpad_01.bag" "fp-1" 10 [wconn]
      [wstored] wmeta 5 9 (by intro s hs; simp at hs; rw [hs]; exact ⟨by decide, by decide⟩)
      ⟨by decide, by decide⟩).2.2⟩

/-- C2: upsert keyed on `(file_path, content_fingerprint)`: with an existing
record of the same path, an unchanged fingerprint makes upsert a no-op
returning the existing record unmodified (same id, same created_at, no new
row), while a changed fingerprint replaces the row in place, keeping the same
id, refreshing created_at, leaving the row count unchanged and touching no
other row. -/
theorem upsert_keyed_contract (store : List StoredBag) (meta : BagMeta)
    (now fid : Nat) (r : StoredBag)
    (hfind : store.find? (fun s => s.meta.file_path == meta.file_path) = some r) :
    (r.meta.content_fingerprint = meta.content_fingerprint →
      upsert store meta now fid = (store, r)) ∧
    (r.meta.content_fingerprint ≠ meta.content_fingerprint →
      (upsert store meta now fid).2.id = r.id ∧
      (upsert store meta now fid).2.created_at = now ∧
      (upsert store meta now fid).2.meta = meta ∧
      (upsert store meta now fid).1.length = store.length ∧
      (upsert store meta now fid).2 ∈ (upsert store meta now fid).1 ∧
      ∀ s ∈ (upsert store meta now fid).1,
        s = (upsert store meta now fid).2 ∨ s ∈ store) := by
  have hpath : r.meta.file_path = meta.file_path := by
    have h := List.find?_some hfind
    simpa using h
  constructor
  · intro heq
    exact upsert_of_find_same hfind heq
  · intro hne
    rw [upsert_of_find_changed hfind hne]
    refine ⟨rfl, rfl, rfl, ?_, ?_, ?_⟩
    · exact replaceByPath_length (List.mem_of_find?_eq_some hfind) hpath
    · exact self_mem_replaceByPath store _
    · intro s hs
      exact mem_replaceByPath hs

/-- Witness for C2: re-ingesting `wstored`'s path with a changed fingerprint
keeps id 7, refreshes created_at to 42, and keeps a single row. -/
theorem upsert_keyed_contract_witness :
    (upsert [wstored] wmeta 42 9).2.id = 7 ∧
    (upsert [wstored] wmeta 42 9).2.created_at = 42 ∧
    (upsert [wstored] wmeta 42 9).1.length = 1 :=
  ⟨((upsert_keyed_contract [wstored] wmeta 42 9 wstored (by decide)).2
      (by decide)).1,
    ((upsert_keyed_contract [wstored] wmeta 42 9 wstored (by decide)).2
      (by decide)).2.1,
    ((upsert_keyed_contract [wstored] wmeta 42 9 wstored (by decide)).2
      (by decide)).2.2.2.1⟩

theorem decodeKind_kindCode (k : RecordKind) : decodeKind (kindCode k) = some k := by
  cases k <;> rfl

theorem parseRecords_encodeBag_append (rs : List RawRecord) :
    ∀ (t : List Nat) (acc : List RawRecord),
      parseRecords (encodeBag rs ++ t) acc = parseRecords t (rs.reverse ++ acc) := by
  induction rs with
  | nil =>
    intro t acc
    simp [encodeBag]
  | cons r rs ih =>
    intro t acc
    have hshape : encodeBag (r :: rs) ++ t
        = kindCode r.kind :: r.payload.length ::
            (r.payload ++ (encodeBag rs ++ t)) := by
      simp [encodeBag, encodeRecord]
    have hlen : ¬ (r.payload ++ (encodeBag rs ++ t)).length < r.payload.length := by
      simp [List.length_append]
    rw [hshape]
    simp only [parseRecords, decodeKind_kindCode]
    rw [if_neg hlen, List.take_left, List.drop_left]
    have heta : (⟨r.kind, r.payload⟩ : RawRecord) = r := rfl
    rw [heta, ih]
    congr 1
    simp

/-- C3: a bag whose trailing record is truncated parses cleanly: the parser
returns everything parsed so far with `truncated = true` (the complete bag
parses to the same record list with `truncated = false`), and it never
returns `parseError` for such a partial file. -/
theorem parser_truncated_recovery (rs : List RawRecord) (r : RawRecord) (k : Nat)
    (h1 : 0 < k) (h2 : k < (encodeRecord r).length) :
    parseRecords (encodeBag rs) [] = .ok rs false ∧
    parseRecords (encodeBag rs ++ (encodeRecord r).take k) [] = .ok rs true := by
  constructor
  · have h := parseRecords_encodeBag_append rs [] []
    rw [List.append_nil] at h
    rw [h]
    simp [parseRecords]
  · rw [parseRecords_encodeBag_append]
    rcases k with _ | _ | j
    · omega
    · show parseRecords [kindCode r.kind] (rs.reverse ++ []) = .ok rs true
      simp [parseRecords]
    · have htake : (encodeRecord r).take (j + 2)
          = kindCode r.kind :: r.payload.length :: r.payload.take j := by
        simp [encodeRecord]
      have hj : j < r.payload.length := by
        simp [encodeRecord] at h2
        omega
      have hlt : (r.payload.take j).length < r.payload.length := by
        rw [List.length_take, Nat.min_eq_left (le_of_lt hj)]
        exact hj
      rw [htake]
      simp only [parseRecords, decodeKind_kindCode]
      rw [if_pos hlt]
      simp

/-- Witness for C3: one complete record followed by the first 3 bytes of a
4-byte record parses to that one record with the truncation flag set. -/
theorem parser_truncated_recovery_witness :
    parseRecords (encodeBag [wrec]) [] = .ok [wrec] false ∧
    parseRecords (encodeBag [wrec] ++ (encodeRecord wrecB).take 3) []
      = .ok [wrec] true :=
  ⟨(parser_truncated_recovery [wrec] wrecB 3 (by decide) (by decide)).1,
    (parser_truncated_recovery [wrec] wrecB 3 (by decide) (by decide)).2⟩

/-- C4: every replay session reaching a terminal status has its environment
handle released exactly once, the teardown happens before the status becomes
terminal, and no session mutation occurs after the terminal status is set
(the terminal status write is the last event of the trace). -/
theorem replay_teardown_before_terminal (sess : ReplaySession)
    (bagTopics : List String) (outcome : ReplayOutcome) (handle sent : Nat)
    (hvalid : validTopics bagTopics sess.topics = true) :
    (startReplay sess bagTopics outcome handle sent).1.status.isTerminal = true ∧
    (startReplay sess bagTopics outcome handle sent).1.environment_handle = none ∧
    List.countP isTeardown (startReplay sess bagTopics outcome handle sent).2.2 = 1 ∧
    ∃ pre,
      (startReplay sess bagTopics outcome handle sent).2.2
          = pre ++ [.teardownEnv handle,
              .setStatus (startReplay sess bagTopics outcome handle sent).1.status] ∧
      List.countP isTeardown pre = 0 ∧
      List.countP isTerminalSet pre = 0 := by
  have hstart : startReplay sess bagTopics outcome handle sent
      = ({ sess with status := terminalFor outcome, environment_handle := none },
          none,
          [.allocEnv handle, .setStatus .running] ++
            List.replicate sent (.sendMsg handle) ++
            [.teardownEnv handle, .setStatus (terminalFor outcome)]) := by
    unfold startReplay
    rw [hvalid]
    simp
  rw [hstart]
  refine ⟨?_, rfl, ?_, ?_⟩
  · cases outcome <;> rfl
  · simp [List.countP_append, List.countP_replicate, List.countP_cons,
      isTeardown]
  · refine ⟨[.allocEnv handle, .setStatus .running] ++
        List.replicate sent (.sendMsg handle), ?_, ?_, ?_⟩
    · simp
    · simp [List.countP_append, List.countP_replicate, List.countP_cons,
        isTeardown]
    · simp [List.countP_append, List.countP_replicate, List.countP_cons,
        isTerminalSet, ReplayStatus.isTerminal]

/-- Witness for C4 at a valid concrete session that times out. -/
theorem replay_teardown_before_terminal_witness :
    (startReplay wsession ["/imu", "/camera"] .deadline 11 4).1.status.isTerminal
        = true ∧
    List.countP isTeardown (startReplay wsession ["/imu", "/camera"] .deadline 11 4).2.2
        = 1 :=
  ⟨(replay_teardown_before_terminal wsession ["/imu", "/camera"] .deadline 11 4
      (by decide)).1,
    (replay_teardown_before_terminal wsession ["/imu", "/camera"] .deadline 11 4
      (by decide)).2.2.1⟩

/-- C5: a start call whose topic set is empty or not a subset of the bag's
known topics fails with InvalidTopicError, the session never leaves Pending
(it is returned unchanged), and no execution environment is allocated (the
trace holds no allocation event). -/
theorem replay_invalid_topics_rejected (sess : ReplaySession)
    (bagTopics : List String) (outcome : ReplayOutcome) (handle sent : Nat)
    (hpending : sess.status = .pending)
    (hbad : sess.topics = [] ∨ ∃ t ∈ sess.topics, t ∉ bagTopics) :
    (startReplay sess bagTopics outcome handle sent).2.1
        = some .invalidTopic ∧
    (startReplay sess bagTopics outcome handle sent).1 = sess ∧
    (startReplay sess bagTopics outcome handle sent).1.status = .pending ∧
    List.countP isAlloc (startReplay sess bagTopics outcome handle sent).2.2
        = 0 := by
  have hvalid : validTopics bagTopics sess.topics = false := by
    unfold validTopics
    rcases hbad with h | ⟨t, ht, hnot⟩
    · simp [h]
    · have hall : sess.topics.all (fun t => bagTopics.contains t) = false := by
        cases hall : sess.topics.all (fun t => bagTopics.contains t)
        · rfl
        · exfalso
          have hc := List.all_eq_true.mp hall t ht
          exact hnot (by simpa using hc)
      rw [hall, Bool.and_false]
  have hstart : startReplay sess bagTopics outcome handle sent
      = (sess, some .invalidTopic, []) := by
    unfold startReplay
    rw [hvalid]
    simp
  rw [hstart]
  exact ⟨rfl, rfl, hpending, rfl⟩

/-- Witness for C5 at a pending session with an empty topic set. -/
theorem replay_invalid_topics_rejected_witness :
    (startReplay wsessionBad ["/imu"] .exhausted 3 2).2.1
        = some .invalidTopic ∧
    (startReplay wsessionBad ["/imu"] .exhausted 3 2).1.status
        = .pending :=
  ⟨(replay_invalid_topics_rejected wsessionBad ["/imu"] .exhausted 3 2
      (by decide) (Or.inl (by decide))).1,
    (replay_invalid_topics_rejected wsessionBad ["/imu"] .exhausted 3 2
      (by decide) (Or.inl (by decide))).2.2.1⟩

theorem writeWithRetry_cases (busy : Nat → Bool) :
    ∀ budget attempt : Nat,
      (∃ k, attempt ≤ k ∧ k ≤ attempt + budget ∧ busy k = false ∧
        writeWithRetry busy budget attempt = .ok k) ∨
      (writeWithRetry busy budget attempt = .storeBusy ∧
        ∀ j, attempt ≤ j → j ≤ attempt + budget → busy j = true) := by
  intro budget
  induction budget with
  | zero =>
    intro attempt
    cases hb : busy attempt
    · exact Or.inl ⟨attempt, le_refl _, by omega, hb, by simp [writeWithRetry, hb]⟩
    · refine Or.inr ⟨by simp [writeWithRetry, hb], ?_⟩
      intro j hj1 hj2
      have hj : j = attempt := by omega
      rw [hj]
      exact hb
  | succ b ih =>
    intro attempt
    cases hb : busy attempt
    · exact Or.inl ⟨attempt, le_refl _, by omega, hb, by simp [writeWithRetry, hb]⟩
    · have hstep : writeWithRetry busy (b + 1) attempt
          = writeWithRetry busy b (attempt + 1) := by
        simp [writeWithRetry, hb]
      rcases ih (attempt + 1) with ⟨k, hk1, hk2, hk3, hk4⟩ | ⟨h4, hall⟩
      · exact Or.inl ⟨k, by omega, by omega, hk3, by rw [hstep]; exact hk4⟩
      · refine Or.inr ⟨by rw [hstep]; exact h4, ?_⟩
        intro j hj1 hj2
        by_cases hj : j = attempt
        · rw [hj]
          exact hb
        · exact hall j (by omega) (by omega)

theorem sum_backoffDelay (base : Nat) :
    ∀ n, (Finset.range n).sum (backoffDelay base) = base * (2 ^ n - 1) := by
  intro n
  induction n with
  | zero => simp
  | succ m ih =>
    rw [Finset.sum_range_succ, ih]
    show base * (2 ^ m - 1) + base * 2 ^ m = base * (2 ^ (m + 1) - 1)
    have h1 : 1 ≤ 2 ^ m := Nat.one_le_two_pow
    have h2 : 2 ^ (m + 1) = 2 * 2 ^ m := by ring
    rw [h2, ← Nat.mul_add]
    congr 1
    omega

/-- C6: every Store write terminates, either succeeding at some attempt
within the retry budget or failing with StoreBusyError; if every attempt in
the budget finds the writer busy the result is StoreBusyError; and the backoff
schedule is bounded exponential, with total delay `base * (2^(budget+1) - 1)`
over a full budget. -/
theorem store_write_terminates (busy : Nat → Bool) (budget base : Nat) :
    ((∃ k, k ≤ budget ∧ busy k = false ∧
        writeWithRetry busy budget 0 = .ok k) ∨
      writeWithRetry busy budget 0 = .storeBusy) ∧
    ((∀ k, k ≤ budget → busy k = true) →
      writeWithRetry busy budget 0 = .storeBusy) ∧
    (Finset.range (budget + 1)).sum (backoffDelay base)
        = base * (2 ^ (budget + 1) - 1) := by
  refine ⟨?_, ?_, sum_backoffDelay base (budget + 1)⟩
  · rcases writeWithRetry_cases busy budget 0 with ⟨k, _, hk2, hk3, hk4⟩ | ⟨h, _⟩
    · exact Or.inl ⟨k, by omega, hk3, hk4⟩
    · exact Or.inr h
  · intro hall
    rcases writeWithRetry_cases busy budget 0 with ⟨k, _, hk2, hk3, _⟩ | ⟨h, _⟩
    · exact absurd (hall k (by omega)) (by simp [hk3])
    · exact h

/-- Witness for C6: an always-busy store exhausts a budget of 3 retries. -/
theorem store_write_terminates_witness :
    writeWithRetry (fun _ => true) 3 0 = .storeBusy :=
  (store_write_terminates (fun _ => true) 3 1).2.1 (fun _ _ => rfl)

/-- C7: the category assigned by the aggregator's classification rule is one
of the fixed labels {skidpad, acceleration, autox, trackdrive} plus
"undefined", and a file the rule does not match is assigned "undefined". -/
theorem category_closed_set (fp fpr : String) (sz : Nat)
    (conns : List ConnectionInfo) :
    (aggregate fp fpr sz conns).category = classifyCategory fp ∧
    classifyCategory fp ∈ categoryLabels ++ ["undefined"] ∧
    ((∀ label ∈ categoryLabels, jsIncludes (strToLower fp) label = false) →
      classifyCategory fp = "undefined") := by
  refine ⟨rfl, ?_, ?_⟩
  · unfold classifyCategory
    rcases hfind : categoryLabels.find?
        (fun label => jsIncludes (strToLower fp) label) with - | l
    · show "undefined" ∈ categoryLabels ++ ["undefined"]
      simp
    · show l ∈ categoryLabels ++ ["undefined"]
      exact List.mem_append.mpr (Or.inl (List.mem_of_find?_eq_some hfind))
  · intro h
    unfold classifyCategory
    have hn : categoryLabels.find?
        (fun label => jsIncludes (strToLower fp) label) = none :=
      List.find?_eq_none.mpr (fun label hl => by simp [h label hl])
    rw [hn]

/-- Witness for C7 at a path matching no label. -/
theorem category_closed_set_witness :
    (aggregate "/data/run_99.bag" "fp" 1 [wconn]).category
        = classifyCategory "/data/run_99.bag" ∧
    classifyCategory "/data/run_99.bag" = "undefined" :=
  ⟨(category_closed_set "/data/run_99.bag" "fp" 1 [wconn]).1,
    (category_closed_set "/data/run_99.bag" "fp" 1 [wconn]).2.2 (by decide)⟩

/-- C8: `updateFilteredRosbags` sets `totalPages` to the ceiling of the
filtered list's length over `itemsPerPage` (= 50), sets the displayed rosbags
to the contiguous slice of the filtered-and-sorted list starting at index
`(currentPage - 1) * 50` of length at most 50, and afterwards `currentPage`
is at most `totalPages` whenever `totalPages` is positive. The hypothesis
`1 ≤ currentPage` is the page range the component maintains; on it the Nat
index arithmetic agrees with the JavaScript slice arithmetic. -/
theorem updateFilteredRosbags_pagination (st : DatabaseViewState)
    (hpage : 1 ≤ st.currentPage) :
    (updateFilteredRosbags st).totalPages
        = ((filteredSortedList st).length + itemsPerPage - 1) / itemsPerPage ∧
    (filteredSortedList st).length
        ≤ (updateFilteredRosbags st).totalPages * itemsPerPage ∧
    (updateFilteredRosbags st).totalPages * itemsPerPage
        < (filteredSortedList st).length + itemsPerPage ∧
    (updateFilteredRosbags st).rosbags
        = ((filteredSortedList st).drop
            ((st.currentPage - 1) * itemsPerPage)).take itemsPerPage ∧
    (updateFilteredRosbags st).rosbags.length ≤ itemsPerPage ∧
    (0 < (updateFilteredRosbags st).totalPages →
      (updateFilteredRosbags st).currentPage
        ≤ (updateFilteredRosbags st).totalPages) := by
  refine ⟨rfl, ?_, ?_, rfl, ?_, ?_⟩
  · show (filteredSortedList st).length
        ≤ (((filteredSortedList st).length + 50 - 1) / 50) * 50
    omega
  · show (((filteredSortedList st).length + 50 - 1) / 50) * 50
        < (filteredSortedList st).length + 50
    omega
  · show (((filteredSortedList st).drop
        ((st.currentPage - 1) * itemsPerPage)).take itemsPerPage).length
        ≤ itemsPerPage
    rw [List.length_take]
    exact min_le_left _ _
  · show 0 < ((filteredSortedList st).length + 50 - 1) / 50 →
      (if st.currentPage > ((filteredSortedList st).length + 50 - 1) / 50 ∧
          ((filteredSortedList st).length + 50 - 1) / 50 > 0 then
        ((filteredSortedList st).length + 50 - 1) / 50
      else st.currentPage)
        ≤ ((filteredSortedList st).length + 50 - 1) / 50
    intro h
    split
    · exact le_refl _
    · next hc => omega

/-- Witness for C8 at a concrete filtered state. -/
theorem updateFilteredRosbags_pagination_witness :
    1 ≤ wstate.currentPage ∧
    (updateFilteredRosbags wstate).totalPages
        = ((filteredSortedList wstate).length + itemsPerPage - 1) / itemsPerPage ∧
    (updateFilteredRosbags wstate).rosbags.length ≤ itemsPerPage :=
  ⟨by decide, (updateFilteredRosbags_pagination wstate (by decide)).1,
    (updateFilteredRosbags_pagination wstate (by decide)).2.2.2.2.1⟩

/-- C9: after `updateFilteredRosbags`, when `filterBy` is not `'all'` every
displayed row's `map_category` equals `filterBy` case-insensitively, and when
`searchTerm` is non-empty every displayed row's `file_path` contains
`searchTerm` case-insensitively. -/
theorem updateFilteredRosbags_filters_respected (st : DatabaseViewState) :
    (st.filterBy ≠ "all" →
      ∀ r ∈ (updateFilteredRosbags st).rosbags,
        strToLower r.map_category = strToLower st.filterBy) ∧
    (st.searchTerm ≠ "" →
      ∀ r ∈ (updateFilteredRosbags st).rosbags,
        jsIncludes (strToLower r.file_path) (strToLower st.searchTerm)
          = true) := by
  have hmem : ∀ r ∈ (updateFilteredRosbags st).rosbags, r ∈ searchFiltered st := by
    intro r hr
    have hr0 : r ∈ ((filteredSortedList st).drop
        ((st.currentPage - 1) * itemsPerPage)).take itemsPerPage := hr
    have hr1 : r ∈ filteredSortedList st :=
      List.mem_of_mem_drop (List.mem_of_mem_take hr0)
    have hr2 : r ∈ List.insertionSort
        (fun a b => sortComparator st.sortBy a b ≤ 0) (searchFiltered st) := hr1
    exact (List.perm_insertionSort _ _).mem_iff.mp hr2
  have hcat : ∀ r ∈ searchFiltered st, r ∈ categoryFiltered st := by
    intro r hr
    unfold searchFiltered at hr
    split at hr
    · exact hr
    · exact (List.mem_filter.mp hr).1
  constructor
  · intro hne r hr
    have h1 : r ∈ categoryFiltered st := hcat r (hmem r hr)
    have hfne : (st.filterBy == "all") = false := by simpa using hne
    unfold categoryFiltered at h1
    simp only [hfne, Bool.false_eq_true, if_false] at h1
    have h2 := (List.mem_filter.mp h1).2
    have h3 := (Bool.and_eq_true _ _).mp h2
    exact beq_iff_eq.mp h3.2
  · intro hne r hr
    have h1 : r ∈ searchFiltered st := hmem r hr
    have hsne : (st.searchTerm == "") = false := by simpa using hne
    unfold searchFiltered at h1
    simp only [hsne, Bool.false_eq_true, if_false] at h1
    exact (List.mem_filter.mp h1).2

/-- Witness for C9: the skidpad row displayed under filter "skidpad" and
search "skid" satisfies both predicates. -/
theorem updateFilteredRosbags_filters_respected_witness :
    strToLower wbagA.map_category = strToLower wstate.filterBy ∧
    jsIncludes (strToLower wbagA.file_path) (strToLower wstate.searchTerm)
      = true :=
  ⟨(updateFilteredRosbags_filters_respected wstate).1 (by decide) wbagA
      (by decide),
    (updateFilteredRosbags_filters_respected wstate).2 (by decide) wbagA
      (by decide)⟩

/-- C10: `deleteRosbag` is atomic with respect to the displayed store: a
rejected delete request changes nothing but the error message; a resolved
request removes every entry with the deleted bag's id from `allRosbags`,
recomputes the filtered view with `updateFilteredRosbags`, and clears the
confirmation-dialog state (`showDeleteConfirm`, `rosbagToDelete`). -/
theorem deleteRosbag_atomicity (st : DatabaseViewState) (bag : Rosbag)
    (hsel : st.rosbagToDelete = some bag) :
    (∀ msg, deleteRosbag st (.error msg)
        = { st with error :=
              if msg == "" then "Failed to delete rosbag" else msg }) ∧
    (∀ b ∈ (deleteRosbag st (.ok ())).allRosbags, b.id ≠ bag.id) ∧
    (deleteRosbag st (.ok ())).allRosbags
        = st.allRosbags.filter (fun b => !(b.id == bag.id)) ∧
    deleteRosbag st (.ok ())
        = { updateFilteredRosbags
              { st with allRosbags :=
                  st.allRosbags.filter (fun b => !(b.id == bag.id)) } with
            showDeleteConfirm := false, rosbagToDelete := none } := by
  have hok : deleteRosbag st (.ok ())
      = { updateFilteredRosbags
            { st with allRosbags :=
                st.allRosbags.filter (fun b => !(b.id == bag.id)) } with
          showDeleteConfirm := false, rosbagToDelete := none } := by
    unfold deleteRosbag
    rw [hsel]
  refine ⟨?_, ?_, ?_, hok⟩
  · intro msg
    unfold deleteRosbag
    rw [hsel]
  · intro b hb
    rw [hok] at hb
    have hb' : b ∈ st.allRosbags.filter (fun b => !(b.id == bag.id)) := hb
    have hp := (List.mem_filter.mp hb').2
    simpa using hp
  · rw [hok]
    rfl

/-- Witness for C10: deleting `wbagA` from the two-row state removes exactly
its row on success and only sets the error message on rejection. -/
theorem deleteRosbag_atomicity_witness :
    deleteRosbag wstateDel (.error "boom")
        = { wstateDel with error :=
              if "boom" == "" then "Failed to delete rosbag" else "boom" } ∧
    (deleteRosbag wstateDel (.ok ())).allRosbags = [wbagB] :=
  ⟨(deleteRosbag_atomicity wstateDel wbagA rfl).1 "boom",
    by
      rw [(deleteRosbag_atomicity wstateDel wbagA rfl).2.2.1]
      decide⟩

end RosbagCockpit
